import Mathlib

/-!
Shallow embedding of the outbound request gateway implemented in
src/services/openRouterService.ts: the sliding-window throttle
(calculateDelay, updateQueue), the response-validation checks, the
catch-block failure classifier (429 backoff/requeue versus terminal
rejection), the JSON.stringify response cache, the single-flight dispatch
loop (processNextRequest / makeOpenRouterRequest), and a control-flow
model of the loop's re-entry discipline around the isProcessing flag.

Timestamps and durations are modelled as integers (milliseconds), the
response cache as an association list, and the upstream API as an oracle
assigning each attempted call an outcome (a response body or an error
carrying the fields the catch block inspects) together with the time the
call takes.
-/

namespace OpenRouter

/-- MAX_RETRIES = 5 (source line 7). -/
def MAX_RETRIES : Nat := 5

/-- BASE_DELAY_MS = 10000, the 10 s base retry delay (source line 8). -/
def BASE_DELAY_MS : Int := 10000

/-- RATE_LIMIT_REQUESTS = 2, two requests per minute (source line 9). -/
def RATE_LIMIT_REQUESTS : Nat := 2

/-- MIN_DELAY_MS = Math.ceil(60 * 1000 / RATE_LIMIT_REQUESTS) (source line 10).
The division is exact (60000 / 2 = 30000), so Math.ceil does not round. -/
def MIN_DELAY_MS : Int := 60 * 1000 / (RATE_LIMIT_REQUESTS : Int)

/-- MAX_QUEUE_SIZE = RATE_LIMIT_REQUESTS (source line 16). -/
def MAX_QUEUE_SIZE : Nat := RATE_LIMIT_REQUESTS

/-- MAX_CONCURRENT_REQUESTS = 2 (source line 12). -/
def MAX_CONCURRENT_REQUESTS : Nat := 2

/-- calculateDelay (source lines 32-40): 0 while fewer than MAX_QUEUE_SIZE
timestamps are held, otherwise Math.max(0, MIN_DELAY_MS - (now - requestQueue[0])).
The queue is oldest-first, so requestQueue[0] is the oldest retained timestamp. -/
def calculateDelay (requestQueue : List Int) (now : Int) : Int :=
  if requestQueue.length < MAX_QUEUE_SIZE then 0
  else max 0 (MIN_DELAY_MS - (now - requestQueue.headI))

/-- The while loop of updateQueue (source lines 46-48): shift entries from the
front while now - requestQueue[0] >= 60 * 1000. -/
def dropStale (now : Int) : List Int → List Int
  | [] => []
  | t :: rest => if 60 * 1000 ≤ now - t then dropStale now rest else t :: rest

/-- updateQueue (source lines 43-52): push now, drop stale entries from the
front, then drop one more entry if the length still exceeds MAX_QUEUE_SIZE. -/
def updateQueue (requestQueue : List Int) (now : Int) : List Int :=
  let q := dropStale now (requestQueue ++ [now])
  if MAX_QUEUE_SIZE < q.length then q.drop 1 else q

/-- A chat message {role, content} (source lines 18-19). -/
structure Message where
  role : String
  content : String
deriving DecidableEq, Repr

/-- JSON string escaping as performed by JSON.stringify, restricted to the
two escapes that can arise here (backslash and double quote). -/
def jsonEscape (s : String) : String :=
  s.data.foldl (fun acc c =>
    if c = '\\' then acc ++ "\\\\"
    else if c = '"' then acc ++ "\\\""
    else acc.push c) ""

/-- A JSON string literal: quotes around the escaped content. -/
def jsonStr (s : String) : String := "\"" ++ jsonEscape s ++ "\""

/-- The cache fingerprint JSON.stringify({ messages, model }) (source line 63):
a deterministic structural serialization of the ordered message list and the
model identifier. -/
def cacheKey (messages : List Message) (model : String) : String :=
  "\x7b\"messages\":[" ++
    String.intercalate "," (messages.map (fun m =>
      "\x7b\"role\":" ++ jsonStr m.role ++ ",\"content\":" ++ jsonStr m.content ++ "\x7d")) ++
  "],\"model\":" ++ jsonStr model ++ "\x7d"

/-- The value found at choices[0]?.message?.content, as a JavaScript value:
a string, some non-string value (with its truthiness), or undefined (which
also covers an absent message object, since optional chaining collapses both). -/
inductive JsContent where
  | jstr (s : String)
  | nonString (truthy : Bool)
  | undef
deriving DecidableEq, Repr

/-- One element of response.data.choices; message is None when the choice has
no message field (choices[0]?.message?.content then evaluates to undefined). -/
structure Choice where
  message : Option JsContent
deriving DecidableEq, Repr

/-- The fields of an object response body that the validation code inspects:
errorField is None when response.data.error is absent or falsy, and
some m when it is a truthy error object whose message field is m (None for a
missing message, which JavaScript reads as undefined). choices is None when
response.data.choices is absent or falsy. -/
structure RespObj where
  errorField : Option (Option String)
  choices : Option (List Choice)
deriving DecidableEq, Repr

/-- A response body: either not a (truthy) object, which fails the first
validation check, or an object with the inspected fields. -/
inductive RespBody where
  | notObject
  | obj (o : RespObj)
deriving DecidableEq, Repr

/-- error.message || 'Unknown error' (source line 110): the fallback fires
when the message is absent or the empty string (both falsy). -/
def errorFieldMessage (m : Option String) : String :=
  match m with
  | some s => if s = "" then "Unknown error" else s
  | none => "Unknown error"

/-- The validation checks of source lines 105-120, in order: body must be a
truthy object; a truthy error field raises "API Error: ..."; absent or empty
choices raises "Empty response from OpenRouter API"; a missing, empty or
non-string choices[0]?.message?.content raises "Invalid response format from
AI". Returns .ok () exactly when control reaches the cache write of line 122. -/
def validateResponse (data : RespBody) : Except String Unit :=
  match data with
  | .notObject => .error "Invalid response format from OpenRouter API"
  | .obj o =>
    match o.errorField with
    | some m => .error ("API Error: " ++ errorFieldMessage m)
    | none =>
      match o.choices with
      | none => .error "Empty response from OpenRouter API"
      | some choices =>
        match choices with
        | [] => .error "Empty response from OpenRouter API"
        | c :: _ =>
          match c.message with
          | some (.jstr s) =>
            if s = "" then .error "Invalid response format from AI" else .ok ()
          | _ => .error "Invalid response format from AI"

/-- The fields of a caught error that the catch block inspects:
error.response?.status (None when there is no HTTP response, e.g. a transport
error or a plain thrown Error), error.code, and error.message. -/
structure UpstreamError where
  status : Option Int
  code : Option String
  message : String
deriving DecidableEq, Repr

/-- The non-429 else-chain of the catch block (source lines 138-150): the
status-specific terminal messages for 402 / 401 / 404 / 408-or-ECONNABORTED,
and otherwise error.message || 'Failed to make OpenRouter request'. -/
def terminalErrorMessage (e : UpstreamError) : String :=
  if e.status = some 402 then
    "OpenRouter API requires credits. Please visit https://openrouter.ai/settings/credits to add credits."
  else if e.status = some 401 then
    "Invalid OpenRouter API key. Please check your configuration."
  else if e.status = some 404 then
    "Selected AI model is not available. Please try again."
  else if e.status = some 408 ∨ e.code = some "ECONNABORTED" then
    "Request timed out. Please try again."
  else if e.message = "" then "Failed to make OpenRouter request"
  else e.message

/-- What the catch block decides to do with a failed attempt: reinsert the
request at the front with a new retry count after sleeping the backoff, or
reject the completion handle with a terminal message. -/
inductive CatchResult where
  | requeue (newRetryCount : Nat) (backoffMs : Int)
  | reject (msg : String)
deriving DecidableEq, Repr

/-- The catch block of processNextRequest (source lines 124-150).
currentRetryCount = (request?.retryCount || 0) + 1; on a 429 with
currentRetryCount < MAX_RETRIES the request is requeued after a backoff of
BASE_DELAY_MS * Math.pow(2, currentRetryCount - 1); on a 429 with retries
exhausted, or on any other failure, the handle is rejected. -/
def catchBlock (retryCount : Option Nat) (e : UpstreamError) : CatchResult :=
  if e.status = some 429 then
    let currentRetryCount := retryCount.getD 0 + 1
    if currentRetryCount < MAX_RETRIES then
      .requeue currentRetryCount (BASE_DELAY_MS * 2 ^ (currentRetryCount - 1))
    else
      .reject "API Error: Rate limit exceeded after maximum retries"
  else
    .reject (terminalErrorMessage e)

/-- A PendingRequest (source lines 18-24). The completion handle
(resolve/reject pair) is modelled by the id: completion events carry the id
of the request whose handle they fulfil, and a requeued request keeps its id
because the same resolve/reject pair is carried into the new PendingRequest. -/
structure PendingRequest where
  id : Nat
  messages : List Message
  model : String
  retryCount : Option Nat
deriving DecidableEq, Repr

/-- The scheduler's mutable module state: pendingRequests (source line 26),
requestQueue of successful dispatch timestamps (line 15), responseCache
(line 27, as an association list), and the current clock. -/
structure SchedulerState where
  pendingRequests : List PendingRequest
  requestQueue : List Int
  responseCache : List (String × RespBody)
  now : Int
deriving DecidableEq, Repr

/-- responseCache.has / responseCache.get: exact-match lookup by key. -/
def lookupCache : List (String × RespBody) → String → Option RespBody
  | [], _ => none
  | (k, v) :: rest, key => if k = key then some v else lookupCache rest key

/-- The upstream oracle's verdict for one attempted axios.post call: the call
resolves with a body, or throws an error; dur is the time the call takes. -/
inductive UpstreamOutcome where
  | ok (dur : Int) (body : RespBody)
  | err (dur : Int) (e : UpstreamError)
deriving DecidableEq, Repr

/-- The duration of an upstream outcome. -/
def UpstreamOutcome.dur : UpstreamOutcome → Int
  | .ok d _ => d
  | .err d _ => d

/-- Observable events of a dispatch-loop execution. -/
inductive Event where
  | throttled (ms : Int)
  | dispatched (id : Nat) (time : Int)
  | recorded (time : Int)
  | cacheHit (id : Nat) (value : RespBody) (time : Int)
  | resolved (id : Nat) (value : RespBody) (time : Int)
  | rejected (id : Nat) (msg : String) (time : Int)
  | backoff (id : Nat) (ms : Int)
deriving DecidableEq, Repr

/-- One cache-missing attempt of the dispatch loop body (source lines 72-150),
for the already-popped request req: sleep the throttling delay, make the
upstream call, and either record the timestamp, run the validation checks and
on success cache and resolve (lines 102-123), or hand the caught error to the
catch block (lines 124-150). A validation failure is a plain thrown Error, so
it reaches the catch block with no response status and no code — after
updateQueue has already run. The clock advances by the throttle delay, the
call duration, and any backoff sleep. -/
def dispatchOnce (st : SchedulerState) (req : PendingRequest) (outcome : UpstreamOutcome) :
    SchedulerState × List Event :=
  let delayMs := calculateDelay st.requestQueue st.now
  let startTime := st.now + delayMs
  match outcome with
  | .ok dur body =>
    let doneTime := startTime + dur
    let q := updateQueue st.requestQueue doneTime
    match validateResponse body with
    | .ok _ =>
      ({ st with requestQueue := q,
                 responseCache := (cacheKey req.messages req.model, body) :: st.responseCache,
                 now := doneTime },
       [.throttled delayMs, .dispatched req.id startTime, .recorded doneTime,
        .resolved req.id body doneTime])
    | .error msg =>
      match catchBlock req.retryCount ⟨none, none, msg⟩ with
      | .requeue n b =>
        ({ st with requestQueue := q,
                   pendingRequests := { req with retryCount := some n } :: st.pendingRequests,
                   now := doneTime + b },
         [.throttled delayMs, .dispatched req.id startTime, .recorded doneTime,
          .backoff req.id b])
      | .reject m =>
        ({ st with requestQueue := q, now := doneTime },
         [.throttled delayMs, .dispatched req.id startTime, .recorded doneTime,
          .rejected req.id m doneTime])
  | .err dur e =>
    let doneTime := startTime + dur
    match catchBlock req.retryCount e with
    | .requeue n b =>
      ({ st with pendingRequests := { req with retryCount := some n } :: st.pendingRequests,
                 now := doneTime + b },
       [.throttled delayMs, .dispatched req.id startTime, .backoff req.id b])
    | .reject m =>
      ({ st with now := doneTime },
       [.throttled delayMs, .dispatched req.id startTime, .rejected req.id m doneTime])

/-- The dispatch loop (processNextRequest, source lines 55-155, plus the loop
continuation in its finally block), serialized: repeatedly pop the head
request; serve it from the cache with no throttling and no timestamp (lines
63-70), or run one upstream attempt via dispatchOnce. The oracle supplies one
outcome per upstream attempt (cache hits consume none); the run stops when
the queue drains, or when fuel or the oracle is exhausted (an upstream call
that never settles).

Fidelity: this serialization is exact for executions in which no popped
request hits the cache — there the source's loop is strictly single-flight
(each pop suspends at its await with the busy flag held, and only the finally
block of the completed attempt resumes the loop) — and for a cache hit with
nothing queued behind it. When a cache hit has further requests queued behind
it, the source's cache-hit path re-invokes the loop and then its finally
block clears the busy flag and re-invokes again, launching concurrent loop
bodies; those interleavings are not executions of run. That synchronous
re-entry discipline is modelled separately by invokeSync, which exhibits the
resulting single-flight violation. -/
def run : Nat → SchedulerState → List UpstreamOutcome → SchedulerState × List Event
  | 0, st, _ => (st, [])
  | fuel + 1, st, oracle =>
    match st.pendingRequests with
    | [] => (st, [])
    | req :: rest =>
      let st0 := { st with pendingRequests := rest }
      match lookupCache st.responseCache (cacheKey req.messages req.model) with
      | some v =>
        let next := run fuel st0 oracle
        (next.1, Event.cacheHit req.id v st.now :: next.2)
      | none =>
        match oracle with
        | [] => (st, [])
        | outcome :: oracle' =>
          let step := dispatchOnce st0 req outcome
          let next := run fuel step.1 oracle'
          (next.1, step.2 ++ next.2)

/-- How the head of pendingRequests will be served: from the cache, or by an
upstream attempt. -/
inductive QItem where
  | hit
  | miss
deriving DecidableEq, Repr

/-- Control-flow model of the synchronous prefix of processNextRequest
(source lines 55-70 and 151-155), tracking the pending queue (abstracted to
whether each entry is a cache hit), the isProcessing flag, and how many loop
bodies are left suspended at an await with the upstream attempt under way.
An invocation returns immediately if the queue is empty or the flag is set
(line 56); otherwise it sets the flag and pops the head (lines 58-59). A
cache hit resolves synchronously, clears the flag and re-invokes the loop
(lines 66-68), and then the function returns, so its finally block (lines
151-154) clears the flag again — even if the inner invocation has meanwhile
set it for a request it suspended on — and re-invokes the loop once more. A
cache miss reaches the first await with the flag still set and suspends. -/
def invokeSync : Nat → List QItem → Bool → List QItem × Bool × Nat
  | 0, q, busy => (q, busy, 0)
  | _ + 1, [], busy => ([], busy, 0)
  | fuel + 1, item :: rest, busy =>
    if busy then (item :: rest, busy, 0)
    else
      match item with
      | .hit =>
        let r1 := invokeSync fuel rest false
        let r2 := invokeSync fuel r1.1 false
        (r2.1, r2.2.1, r1.2.2 + r2.2.2)
      | .miss => (rest, true, 1)

/-- The recorded dispatch timestamps of a trace, in order. -/
def recTimes (evs : List Event) : List Int :=
  evs.filterMap fun e => match e with | .recorded t => some t | _ => none

/-- The ids of the upstream dispatches of a trace, in order. -/
def dispatchedIds (evs : List Event) : List Nat :=
  evs.filterMap fun e => match e with | .dispatched i _ => some i | _ => none

/-- The backoff delays slept in a trace, in order. -/
def backoffDelays (evs : List Event) : List Int :=
  evs.filterMap fun e => match e with | .backoff _ ms => some ms | _ => none

/-- The ids whose completion handle is fulfilled in a trace (resolved from
cache, resolved after a validated upstream success, or rejected), in order. -/
def completionIds (evs : List Event) : List Nat :=
  evs.filterMap fun e => match e with
    | .resolved i _ _ => some i
    | .cacheHit i _ _ => some i
    | .rejected i _ _ => some i
    | _ => none

/-- The (id, message) pairs of the rejections of a trace, in order. -/
def rejections (evs : List Event) : List (Nat × String) :=
  evs.filterMap fun e => match e with | .rejected i m _ => some (i, m) | _ => none

/-- The (id, start time) pairs of the upstream dispatches of a trace, in order. -/
def dispatchTimes (evs : List Event) : List (Nat × Int) :=
  evs.filterMap fun e => match e with | .dispatched i t => some (i, t) | _ => none

/-- The throttling delays consulted before the upstream attempts of a trace. -/
def throttleDelays (evs : List Event) : List Int :=
  evs.filterMap fun e => match e with | .throttled ms => some ms | _ => none

/-- Membership of a timestamp in the trailing 60 000 ms window ending at t. -/
def inWindow (t r : Int) : Bool := decide (t - 60000 < r ∧ r ≤ t)

/-- How many recorded dispatch timestamps of a trace lie in the trailing
60 000 ms window ending at t. -/
def windowCount (evs : List Event) (t : Int) : Nat :=
  ((recTimes evs).filter (inWindow t)).length

/-- A response body passing every validation check. -/
def sampleOkBody : RespBody := .obj ⟨none, some [⟨some (.jstr "ok")⟩]⟩

/-- Whether an upstream outcome is a resolving call. -/
def UpstreamOutcome.isOk : UpstreamOutcome → Bool
  | .ok _ _ => true
  | .err _ _ => false

/-- Reverse-chronological sortedness: each entry is at least as late as every
entry after it. -/
def SortedDesc (l : List Int) : Prop := l.Pairwise (fun x y => y ≤ x)

/-- Minimum spacing of a reverse-chronological timestamp list: every entry is
at least MIN_DELAY_MS later than the entry two positions further back. -/
def Spaced : List Int → Prop
  | a :: b :: c :: rest => c + MIN_DELAY_MS ≤ a ∧ Spaced (b :: c :: rest)
  | _ => True

/-- Invariant tying the requestQueue to the reverse-chronological list of all
recorded timestamps: the queue holds the one or two most recent recordings
(oldest first), and it holds only one exactly when there is no earlier
recording or the previous recording is at least a full 60 000 ms window
older than the latest. -/
def QueueInv (q rrev : List Int) : Prop :=
  match rrev with
  | [] => q = []
  | a :: rest =>
      (q = [a] ∧ (rest = [] ∨ ∃ b rest', rest = b :: rest' ∧ b + 60000 ≤ a)) ∨
      (∃ b rest', rest = b :: rest' ∧ q = [b, a])

/-- On any failure whose status is not 429, the catch block rejects with the
terminal message of the else-chain. -/
lemma catchBlock_non429 (rc : Option Nat) (e : UpstreamError) (h : ¬ e.status = some 429) :
    catchBlock rc e = .reject (terminalErrorMessage e) := by
  simp [catchBlock, h]

/-- The messages of the validation checks are never the empty string, so the
catch block's error.message fallback never fires for them. -/
lemma validate_error_msg_ne_empty (body : RespBody) (msg : String)
    (h : validateResponse body = .error msg) : ¬ msg = "" := by
  cases body with
  | notObject =>
    simp only [validateResponse, Except.error.injEq] at h
    subst h; decide
  | obj o =>
    rcases o with ⟨ef, cs⟩
    rcases ef with _ | m
    · rcases cs with _ | cl
      · simp only [validateResponse, Except.error.injEq] at h
        subst h; decide
      · rcases cl with _ | ⟨c, cl'⟩
        · simp only [validateResponse, Except.error.injEq] at h
          subst h; decide
        · rcases c with ⟨mc⟩
          rcases mc with _ | jc
          · simp only [validateResponse, Except.error.injEq] at h
            subst h; decide
          · rcases jc with s | tb | _
            · by_cases hs : s = "" <;>
                simp only [validateResponse, hs, if_true, if_false, reduceIte,
                  Except.error.injEq] at h
              · subst h; decide
              · exact absurd h (by simp)
            · simp only [validateResponse, Except.error.injEq] at h
              subst h; decide
            · simp only [validateResponse, Except.error.injEq] at h
              subst h; decide
    · simp only [validateResponse, Except.error.injEq] at h
      subst h
      intro hc
      have hdata := congrArg String.data hc
      simp [String.data_append] at hdata

/-- A validation failure is a plain thrown Error, carrying no response status
and no code, so the catch block always rejects it with its message. -/
lemma catchBlock_validation_error (rc : Option Nat) (msg : String) (h : ¬ msg = "") :
    catchBlock rc ⟨none, none, msg⟩ = .reject msg := by
  simp [catchBlock, terminalErrorMessage, h]

/-- A non-429 failing attempt in full: the clock advances by the throttle
delay and the call duration, the queue and cache are untouched, and the
handle is rejected with the terminal message. -/
lemma dispatchOnce_err_of_non429 (st : SchedulerState) (req : PendingRequest) (dur : Int)
    (e : UpstreamError) (h : ¬ e.status = some 429) :
    dispatchOnce st req (.err dur e) =
      ({ st with now := st.now + calculateDelay st.requestQueue st.now + dur },
       [.throttled (calculateDelay st.requestQueue st.now),
        .dispatched req.id (st.now + calculateDelay st.requestQueue st.now),
        .rejected req.id (terminalErrorMessage e)
          (st.now + calculateDelay st.requestQueue st.now + dur)]) := by
  simp [dispatchOnce, catchBlock_non429 req.retryCount e h]

/-- An attempt whose upstream call resolves but whose body fails validation,
in full: the timestamp is recorded (updateQueue ran before the checks), the
cache and pending queue are untouched, and the handle is rejected with the
validation message. -/
lemma dispatchOnce_ok_of_error (st : SchedulerState) (req : PendingRequest) (dur : Int)
    (body : RespBody) (msg : String) (h : validateResponse body = .error msg) :
    dispatchOnce st req (.ok dur body) =
      ({ st with
          requestQueue := updateQueue st.requestQueue
            (st.now + calculateDelay st.requestQueue st.now + dur),
          now := st.now + calculateDelay st.requestQueue st.now + dur },
       [.throttled (calculateDelay st.requestQueue st.now),
        .dispatched req.id (st.now + calculateDelay st.requestQueue st.now),
        .recorded (st.now + calculateDelay st.requestQueue st.now + dur),
        .rejected req.id msg (st.now + calculateDelay st.requestQueue st.now + dur)]) := by
  have hne := validate_error_msg_ne_empty body msg h
  simp [dispatchOnce, h, catchBlock_validation_error req.retryCount msg hne]

/-- A successfully validated attempt in full: the timestamp is recorded, the
body is cached under the request's fingerprint, and the handle is resolved. -/
lemma dispatchOnce_ok_of_valid (st : SchedulerState) (req : PendingRequest) (dur : Int)
    (body : RespBody) (h : validateResponse body = .ok ()) :
    dispatchOnce st req (.ok dur body) =
      ({ st with
          requestQueue := updateQueue st.requestQueue
            (st.now + calculateDelay st.requestQueue st.now + dur),
          responseCache := (cacheKey req.messages req.model, body) :: st.responseCache,
          now := st.now + calculateDelay st.requestQueue st.now + dur },
       [.throttled (calculateDelay st.requestQueue st.now),
        .dispatched req.id (st.now + calculateDelay st.requestQueue st.now),
        .recorded (st.now + calculateDelay st.requestQueue st.now + dur),
        .resolved req.id body (st.now + calculateDelay st.requestQueue st.now + dur)]) := by
  simp [dispatchOnce, h]

/-- A retryable 429 attempt in full: the backoff is slept and the request is
reinserted at the front with the incremented retry count. -/
lemma dispatchOnce_err_of_requeue (st : SchedulerState) (req : PendingRequest) (dur : Int)
    (e : UpstreamError) (n : Nat) (b : Int) (h : catchBlock req.retryCount e = .requeue n b) :
    dispatchOnce st req (.err dur e) =
      ({ st with
          pendingRequests := { req with retryCount := some n } :: st.pendingRequests,
          now := st.now + calculateDelay st.requestQueue st.now + dur + b },
       [.throttled (calculateDelay st.requestQueue st.now),
        .dispatched req.id (st.now + calculateDelay st.requestQueue st.now),
        .backoff req.id b]) := by
  simp [dispatchOnce, h]

/-- The backoff computed for a granted retry is nonnegative. -/
lemma catchBlock_requeue_backoff_nonneg (rc : Option Nat) (e : UpstreamError) (n : Nat)
    (b : Int) (h : catchBlock rc e = .requeue n b) : 0 ≤ b := by
  unfold catchBlock at h
  by_cases h429 : e.status = some 429
  · simp only [h429, if_true, reduceIte] at h
    by_cases hlt : rc.getD 0 + 1 < MAX_RETRIES
    · simp only [hlt, if_true, reduceIte, CatchResult.requeue.injEq] at h
      rw [← h.2]
      have : (0:Int) ≤ 2 ^ (rc.getD 0 + 1 - 1) := by positivity
      simp only [BASE_DELAY_MS]
      positivity
    · simp [hlt] at h
  · simp [h429] at h

/-- The throttling delay is never negative. -/
lemma calculateDelay_nonneg (q : List Int) (now : Int) : 0 ≤ calculateDelay q now := by
  unfold calculateDelay
  split
  · exact le_refl 0
  · exact le_max_left 0 _

/-- Recording into an empty window keeps exactly the new timestamp. -/
lemma updateQueue_nil (t : Int) : updateQueue [] t = [t] := by
  simp [updateQueue, dropStale, MAX_QUEUE_SIZE, RATE_LIMIT_REQUESTS]

/-- Recording into a one-entry window: the old entry is trimmed exactly when
it is a full window old. -/
lemma updateQueue_one (a t : Int) :
    updateQueue [a] t = if 60000 ≤ t - a then [t] else [a, t] := by
  by_cases h : (60000 : Int) ≤ t - a <;>
    simp [updateQueue, dropStale, h, MAX_QUEUE_SIZE, RATE_LIMIT_REQUESTS]

/-- Recording into a full two-entry window: stale entries are trimmed from
the front, and otherwise the length cap drops the oldest entry. -/
lemma updateQueue_two (b a t : Int) :
    updateQueue [b, a] t =
      if 60000 ≤ t - b then (if 60000 ≤ t - a then [t] else [a, t])
      else [a, t] := by
  by_cases hb : (60000 : Int) ≤ t - b
  · by_cases ha : (60000 : Int) ≤ t - a <;>
      simp [updateQueue, dropStale, hb, ha, MAX_QUEUE_SIZE, RATE_LIMIT_REQUESTS]
  · simp [updateQueue, dropStale, hb, MAX_QUEUE_SIZE, RATE_LIMIT_REQUESTS]

/-- C2 (counterexample): a request failing with HTTP 429 on every attempt
sleeps backoffs of 10000, 20000, 40000 and 80000 ms only — four delays, not
the five claimed; the 160000 ms delay never occurs, because the fifth failure
is terminal without a further sleep. -/
theorem c2_counterexample :
    backoffDelays (run 6 ⟨[⟨1, [⟨"user", "q"⟩], "m", none⟩], [], [], 0⟩
        (List.replicate 5 (.err 0 ⟨some 429, none, "Request failed with status code 429"⟩))).2
      = [10000, 20000, 40000, 80000] ∧
    ([10000, 20000, 40000, 80000] : List Int) ≠ [10000, 20000, 40000, 80000, 160000] := by
  decide

/-- C2 (amended): for a request that receives HTTP 429 on every attempt, the
backoff delays slept before successive retries are exactly 10000, 20000,
40000, 80000 ms in that order (the n-th of the four retries sleeps
BASE_DELAY_MS * 2^(n-1); a fifth backoff of 160000 ms never occurs), retries
are granted while currentRetryCount < MAX_RETRIES = 5, and the completion
handle is rejected with the rate-limit terminal error after the 5th failed
attempt and never before. -/
theorem c2_amended (messages : List Message) (model emsg : String) :
    backoffDelays (run 6 ⟨[⟨1, messages, model, none⟩], [], [], 0⟩
        (List.replicate 5 (.err 0 ⟨some 429, none, emsg⟩))).2
      = [10000, 20000, 40000, 80000] ∧
    rejections (run 6 ⟨[⟨1, messages, model, none⟩], [], [], 0⟩
        (List.replicate 5 (.err 0 ⟨some 429, none, emsg⟩))).2
      = [(1, "API Error: Rate limit exceeded after maximum retries")] ∧
    (dispatchedIds (run 6 ⟨[⟨1, messages, model, none⟩], [], [], 0⟩
        (List.replicate 5 (.err 0 ⟨some 429, none, emsg⟩))).2).length = 5 ∧
    (∀ fuel, fuel < 5 →
      rejections (run fuel ⟨[⟨1, messages, model, none⟩], [], [], 0⟩
          (List.replicate 5 (.err 0 ⟨some 429, none, emsg⟩))).2 = []) := by
  refine ⟨rfl, rfl, rfl, ?_⟩
  intro fuel hf
  interval_cases fuel <;> rfl

/-- C2 (witness): the amended statement at a concrete request. -/
theorem c2_amended_witness :
    backoffDelays (run 6 ⟨[⟨1, [], "m", none⟩], [], [], 0⟩
        (List.replicate 5 (.err 0 ⟨some 429, none, "x"⟩))).2
      = [10000, 20000, 40000, 80000] ∧
    rejections (run 4 ⟨[⟨1, [], "m", none⟩], [], [], 0⟩
        (List.replicate 5 (.err 0 ⟨some 429, none, "x"⟩))).2 = [] :=
  ⟨(c2_amended [] "m" "x").1, (c2_amended [] "m" "x").2.2.2 4 (by decide)⟩

/-- C5: the cache fingerprint is a deterministic structural function of the
ordered message list and the model, and for two queued submissions with
identical messages and model whose first attempt succeeds with a validated
body, the first is dispatched and resolved, the second is served from the
cache with the same payload: exactly one upstream dispatch occurs, the
cache-hit completion consumes no throttling delay and happens at the same
clock value, and exactly one timestamp enters the rate window. -/
theorem c5_cache_deduplicates (id₁ id₂ : Nat) (messages : List Message) (model : String)
    (body : RespBody) (dur now0 : Int) (hv : validateResponse body = .ok ()) :
    (run 3 ⟨[⟨id₁, messages, model, none⟩, ⟨id₂, messages, model, none⟩], [], [], now0⟩
        [.ok dur body]).2
      = [.throttled 0, .dispatched id₁ now0, .recorded (now0 + dur),
         .resolved id₁ body (now0 + dur), .cacheHit id₂ body (now0 + dur)] ∧
    (run 3 ⟨[⟨id₁, messages, model, none⟩, ⟨id₂, messages, model, none⟩], [], [], now0⟩
        [.ok dur body]).1.requestQueue = [now0 + dur] ∧
    (∀ (m₁ m₂ : List Message) (mo₁ mo₂ : String), m₁ = m₂ → mo₁ = mo₂ →
        cacheKey m₁ mo₁ = cacheKey m₂ mo₂) := by
  have hd : calculateDelay [] now0 = 0 := rfl
  refine ⟨?_, ?_, ?_⟩
  · simp [run, dispatchOnce_ok_of_valid _ _ _ _ hv, lookupCache, hd, updateQueue_nil]
  · simp [run, dispatchOnce_ok_of_valid _ _ _ _ hv, lookupCache, hd, updateQueue_nil]
  · intro m₁ m₂ mo₁ mo₂ h1 h2
    rw [h1, h2]

/-- C5 (witness): the deduplication statement at a concrete repeated request. -/
theorem c5_witness :
    (run 3 ⟨[⟨1, [⟨"u", "x"⟩], "m", none⟩, ⟨2, [⟨"u", "x"⟩], "m", none⟩], [], [], 0⟩
        [.ok 5 sampleOkBody]).2
      = [.throttled 0, .dispatched 1 0, .recorded 5, .resolved 1 sampleOkBody 5,
         .cacheHit 2 sampleOkBody 5] ∧
    (run 3 ⟨[⟨1, [⟨"u", "x"⟩], "m", none⟩, ⟨2, [⟨"u", "x"⟩], "m", none⟩], [], [], 0⟩
        [.ok 5 sampleOkBody]).1.requestQueue = [5] := by
  have h := c5_cache_deduplicates 1 2 [⟨"u", "x"⟩] "m" sampleOkBody 5 0 rfl
  exact ⟨by simpa using h.1, by simpa using h.2.1⟩

/-- C7: the throttling delay is 0 while fewer than RATE_LIMIT_REQUESTS = 2
timestamps are recorded, and otherwise max(0, MIN_DELAY_MS - (now - oldest))
with MIN_DELAY_MS = 30000; consequently, for three distinct back-to-back
submissions on an empty cache, requests 1 and 2 dispatch with zero throttling
delay and request 3 dispatches exactly 30 000 ms after request 1's recorded
dispatch timestamp. -/
theorem c7_delay_formula_and_third_request :
    (∀ (q : List Int) (now : Int), q.length < RATE_LIMIT_REQUESTS →
        calculateDelay q now = 0) ∧
    (∀ (q : List Int) (now : Int), ¬ q.length < RATE_LIMIT_REQUESTS →
        calculateDelay q now = max 0 (MIN_DELAY_MS - (now - q.headI))) ∧
    MIN_DELAY_MS = 30000 ∧
    (throttleDelays (run 4 ⟨[⟨1, [⟨"user", "q1"⟩], "m", none⟩,
        ⟨2, [⟨"user", "q2"⟩], "m", none⟩, ⟨3, [⟨"user", "q3"⟩], "m", none⟩], [], [], 0⟩
        [.ok 0 sampleOkBody, .ok 0 sampleOkBody, .ok 0 sampleOkBody]).2 = [0, 0, 30000] ∧
     dispatchTimes (run 4 ⟨[⟨1, [⟨"user", "q1"⟩], "m", none⟩,
        ⟨2, [⟨"user", "q2"⟩], "m", none⟩, ⟨3, [⟨"user", "q3"⟩], "m", none⟩], [], [], 0⟩
        [.ok 0 sampleOkBody, .ok 0 sampleOkBody, .ok 0 sampleOkBody]).2
       = [(1, 0), (2, 0), (3, 30000)] ∧
     recTimes (run 4 ⟨[⟨1, [⟨"user", "q1"⟩], "m", none⟩,
        ⟨2, [⟨"user", "q2"⟩], "m", none⟩, ⟨3, [⟨"user", "q3"⟩], "m", none⟩], [], [], 0⟩
        [.ok 0 sampleOkBody, .ok 0 sampleOkBody, .ok 0 sampleOkBody]).2 = [0, 0, 30000]) := by
  refine ⟨?_, ?_, by decide, by decide, by decide, by decide⟩
  · intro q now h
    simp [calculateDelay, MAX_QUEUE_SIZE, h]
  · intro q now h
    simp [calculateDelay, MAX_QUEUE_SIZE, h]

/-- C7 (witness): the delay formula at concrete windows. -/
theorem c7_witness :
    calculateDelay [] 0 = 0 ∧
    calculateDelay [0, 5000] 20000 = max 0 (MIN_DELAY_MS - (20000 - 0)) :=
  ⟨c7_delay_formula_and_third_request.1 [] 0 (by decide),
   c7_delay_formula_and_third_request.2.1 [0, 5000] 20000 (by decide)⟩

/-- C4 (code bug): the dispatch loop is not single-flight. When the head of
the queue is served from the cache, the loop body clears isProcessing and
re-invokes the loop before returning, and then its finally block clears the
flag again — clobbering the flag the inner invocation set for a request it
left awaiting upstream — and invokes the loop once more, which starts a
second upstream attempt concurrently. Invoking the loop on [hit, miss, miss]
leaves 2 bodies suspended at their upstream awaits simultaneously, while the
normal all-miss path leaves exactly 1. -/
theorem c4_cache_hit_breaks_single_flight :
    invokeSync 3 [.hit, .miss, .miss] false = ([], true, 2) ∧
    invokeSync 3 [.miss, .miss, .miss] false = ([.miss, .miss], true, 1) := by
  decide

/-- Under an all-resolving oracle, the dispatch loop pops strictly in queue
order: when every queued fingerprint is uncached and pairwise distinct, the
upstream dispatches happen exactly in submission order. -/
lemma run_order_all_ok :
    ∀ (fuel : Nat) (st : SchedulerState) (oracle : List UpstreamOutcome),
      (∀ o ∈ oracle, o.isOk = true) →
      st.pendingRequests.length ≤ fuel →
      st.pendingRequests.length ≤ oracle.length →
      (st.pendingRequests.map fun r => cacheKey r.messages r.model).Nodup →
      (∀ r ∈ st.pendingRequests,
        lookupCache st.responseCache (cacheKey r.messages r.model) = none) →
      dispatchedIds (run fuel st oracle).2 = st.pendingRequests.map PendingRequest.id := by
  intro fuel
  induction fuel with
  | zero =>
    intro st oracle _ hlen _ _ _
    have hp : st.pendingRequests = [] := List.length_eq_zero.mp (Nat.le_zero.mp hlen)
    simp [run, hp, dispatchedIds]
  | succ n ih =>
    intro st oracle hok hlen holen hnodup hmiss
    cases hp : st.pendingRequests with
    | nil => simp [run, hp, dispatchedIds]
    | cons req rest =>
      have hmiss_req := hmiss req (by rw [hp]; exact List.mem_cons_self _ _)
      rw [hp] at hlen holen hnodup
      cases oracle with
      | nil => simp at holen
      | cons o os =>
        have hok_o : o.isOk = true := hok o (List.mem_cons_self _ _)
        have hok_os : ∀ x ∈ os, x.isOk = true := fun x hx => hok x (List.mem_cons_of_mem _ hx)
        have hlen' : rest.length ≤ n := by simpa using hlen
        have holen' : rest.length ≤ os.length := by simpa using holen
        have hnodup' : (rest.map fun r => cacheKey r.messages r.model).Nodup :=
          (List.nodup_cons.mp (by simpa using hnodup)).2
        have hhead : cacheKey req.messages req.model ∉
            rest.map fun r => cacheKey r.messages r.model :=
          (List.nodup_cons.mp (by simpa using hnodup)).1
        cases o with
        | err d e => simp [UpstreamOutcome.isOk] at hok_o
        | ok d body =>
          simp only [run, hp, hmiss_req]
          cases hv : validateResponse body with
          | ok u =>
            cases u
            rw [dispatchOnce_ok_of_valid _ _ _ _ hv]
            have hmiss' : ∀ r ∈ rest,
                lookupCache ((cacheKey req.messages req.model, body) :: st.responseCache)
                  (cacheKey r.messages r.model) = none := by
              intro r hr
              have hne : ¬ (cacheKey req.messages req.model = cacheKey r.messages r.model) := by
                intro heq
                exact hhead (heq ▸ List.mem_map_of_mem _ hr)
              simp only [lookupCache, if_neg hne]
              exact hmiss r (by rw [hp]; exact List.mem_cons_of_mem _ hr)
            have hrec := ih ⟨rest, updateQueue st.requestQueue
                (st.now + calculateDelay st.requestQueue st.now + d),
                (cacheKey req.messages req.model, body) :: st.responseCache,
                st.now + calculateDelay st.requestQueue st.now + d⟩ os
              hok_os hlen' holen' hnodup' hmiss'
            simpa [dispatchedIds, List.filterMap_append] using hrec
          | error msg =>
            rw [dispatchOnce_ok_of_error _ _ _ _ _ hv]
            have hmiss' : ∀ r ∈ rest,
                lookupCache st.responseCache (cacheKey r.messages r.model) = none :=
              fun r hr => hmiss r (by rw [hp]; exact List.mem_cons_of_mem _ hr)
            have hrec := ih ⟨rest, updateQueue st.requestQueue
                (st.now + calculateDelay st.requestQueue st.now + d),
                st.responseCache,
                st.now + calculateDelay st.requestQueue st.now + d⟩ os
              hok_os hlen' holen' hnodup' hmiss'
            simpa [dispatchedIds, List.filterMap_append] using hrec

/-- C3: with an empty cache, pairwise-distinct fingerprints and an oracle on
which no attempt fails, the upstream dispatch order equals the submission
order; and whenever an attempt fails with a 429 and retries remain, the
request is reinserted at the front of the queue with its retry count
incremented, ahead of every request submitted after it. -/
theorem c3_fifo_and_retry_front :
    (∀ (reqs : List PendingRequest) (oracle : List UpstreamOutcome) (now0 : Int) (fuel : Nat),
        (∀ o ∈ oracle, o.isOk = true) →
        reqs.length ≤ fuel → reqs.length ≤ oracle.length →
        (reqs.map fun r => cacheKey r.messages r.model).Nodup →
        dispatchedIds (run fuel ⟨reqs, [], [], now0⟩ oracle).2 = reqs.map PendingRequest.id) ∧
    (∀ (st : SchedulerState) (req : PendingRequest) (dur : Int) (e : UpstreamError),
        e.status = some 429 → req.retryCount.getD 0 + 1 < MAX_RETRIES →
        (dispatchOnce st req (.err dur e)).1.pendingRequests
          = { req with retryCount := some (req.retryCount.getD 0 + 1) } :: st.pendingRequests) := by
  constructor
  · intro reqs oracle now0 fuel hok hlen holen hnodup
    exact run_order_all_ok fuel ⟨reqs, [], [], now0⟩ oracle hok hlen holen hnodup
      (fun r _ => rfl)
  · intro st req dur e h429 hlt
    have hcb : catchBlock req.retryCount e = .requeue (req.retryCount.getD 0 + 1)
        (BASE_DELAY_MS * 2 ^ (req.retryCount.getD 0 + 1 - 1)) := by
      simp [catchBlock, h429, hlt]
    rw [dispatchOnce_err_of_requeue _ _ _ _ _ _ hcb]

/-- C3 (witness): submission order preserved for two distinct all-success
requests, and front reinsertion for a concrete retryable 429. -/
theorem c3_witness :
    dispatchedIds (run 2 ⟨[⟨1, [⟨"u", "a"⟩], "m", none⟩, ⟨2, [⟨"u", "b"⟩], "m", none⟩],
        [], [], 0⟩ [.ok 0 sampleOkBody, .ok 0 sampleOkBody]).2 = [1, 2] ∧
    (dispatchOnce ⟨[⟨9, [], "m", none⟩], [], [], 0⟩ ⟨5, [], "m", none⟩
        (.err 0 ⟨some 429, none, "x"⟩)).1.pendingRequests
      = [⟨5, [], "m", some 1⟩, ⟨9, [], "m", none⟩] := by
  constructor
  · exact c3_fifo_and_retry_front.1
      [⟨1, [⟨"u", "a"⟩], "m", none⟩, ⟨2, [⟨"u", "b"⟩], "m", none⟩]
      [.ok 0 sampleOkBody, .ok 0 sampleOkBody] 0 2 (by decide) (by decide) (by decide)
      (by decide)
  · have h := c3_fifo_and_retry_front.2 ⟨[⟨9, [], "m", none⟩], [], [], 0⟩
      ⟨5, [], "m", none⟩ 0 ⟨some 429, none, "x"⟩ rfl (by decide)
    simpa using h

/-- C6: every non-429 upstream failure terminates the request without retry
and without reinserting it into the queue; statuses 402, 401, 404 and
408-or-transport-timeout each map to their own human-readable message, the
four messages are pairwise distinct, and any other failure passes the
underlying error's message through. -/
theorem c6_non429_terminal :
    (∀ (st : SchedulerState) (req : PendingRequest) (dur : Int) (e : UpstreamError),
        ¬ e.status = some 429 →
        (dispatchOnce st req (.err dur e)).1.pendingRequests = st.pendingRequests ∧
        backoffDelays (dispatchOnce st req (.err dur e)).2 = [] ∧
        rejections (dispatchOnce st req (.err dur e)).2
          = [(req.id, terminalErrorMessage e)]) ∧
    (∀ e : UpstreamError, e.status = some 402 → terminalErrorMessage e =
      "OpenRouter API requires credits. Please visit https://openrouter.ai/settings/credits to add credits.") ∧
    (∀ e : UpstreamError, e.status = some 401 → terminalErrorMessage e =
      "Invalid OpenRouter API key. Please check your configuration.") ∧
    (∀ e : UpstreamError, e.status = some 404 → terminalErrorMessage e =
      "Selected AI model is not available. Please try again.") ∧
    (∀ e : UpstreamError, ¬ e.status = some 402 → ¬ e.status = some 401 →
      ¬ e.status = some 404 → (e.status = some 408 ∨ e.code = some "ECONNABORTED") →
      terminalErrorMessage e = "Request timed out. Please try again.") ∧
    (∀ e : UpstreamError, ¬ e.status = some 402 → ¬ e.status = some 401 →
      ¬ e.status = some 404 → ¬ e.status = some 408 → ¬ e.code = some "ECONNABORTED" →
      ¬ e.message = "" → terminalErrorMessage e = e.message) ∧
    ([ "OpenRouter API requires credits. Please visit https://openrouter.ai/settings/credits to add credits.",
       "Invalid OpenRouter API key. Please check your configuration.",
       "Selected AI model is not available. Please try again.",
       "Request timed out. Please try again."] : List String).Nodup := by
  refine ⟨?_, ?_, ?_, ?_, ?_, ?_, by decide⟩
  · intro st req dur e h
    rw [dispatchOnce_err_of_non429 st req dur e h]
    exact ⟨rfl, rfl, rfl⟩
  · intro e h; simp [terminalErrorMessage, h]
  · intro e h; simp [terminalErrorMessage, h]
  · intro e h; simp [terminalErrorMessage, h]
  · intro e h402 h401 h404 hor; simp [terminalErrorMessage, h402, h401, h404, hor]
  · intro e h402 h401 h404 h408 hcode hmsg
    simp [terminalErrorMessage, h402, h401, h404, h408, hcode, hmsg]

/-- C6 (witness): the general statement at a concrete 402 failure. -/
theorem c6_witness :
    (dispatchOnce ⟨[], [], [], 0⟩ ⟨7, [], "m", none⟩
        (.err 3 ⟨some 402, none, "Payment Required"⟩)).1.pendingRequests = [] ∧
    rejections (dispatchOnce ⟨[], [], [], 0⟩ ⟨7, [], "m", none⟩
        (.err 3 ⟨some 402, none, "Payment Required"⟩)).2
      = [(7, terminalErrorMessage ⟨some 402, none, "Payment Required"⟩)] := by
  have h := c6_non429_terminal.1 ⟨[], [], [], 0⟩ ⟨7, [], "m", none⟩ 3
    ⟨some 402, none, "Payment Required"⟩ (by decide)
  exact ⟨h.1, h.2.2⟩

/-- C8: a dispatch timestamp enters the rate window only through updateQueue
after an upstream call that resolves, and every attempt whose upstream call
throws — 429, transport error, or any other HTTP failure — leaves the rate
window exactly as it was. -/
theorem c8_window_reflects_success_only :
    (∀ (st : SchedulerState) (req : PendingRequest) (dur : Int) (body : RespBody),
        (dispatchOnce st req (.ok dur body)).1.requestQueue
          = updateQueue st.requestQueue
              (st.now + calculateDelay st.requestQueue st.now + dur)) ∧
    (∀ (st : SchedulerState) (req : PendingRequest) (dur : Int) (e : UpstreamError),
        (dispatchOnce st req (.err dur e)).1.requestQueue = st.requestQueue) := by
  constructor
  · intro st req dur body
    cases hv : validateResponse body with
    | ok u => simp [dispatchOnce, hv]
    | error msg =>
      rw [dispatchOnce_ok_of_error st req dur body msg hv]
  · intro st req dur e
    cases hcb : catchBlock req.retryCount e with
    | requeue n b => simp [dispatchOnce, hcb]
    | reject m => simp [dispatchOnce, hcb]

/-- A terminally failing attempt in full, keyed on the catch block's verdict. -/
lemma dispatchOnce_err_of_reject (st : SchedulerState) (req : PendingRequest) (dur : Int)
    (e : UpstreamError) (m : String) (h : catchBlock req.retryCount e = .reject m) :
    dispatchOnce st req (.err dur e) =
      ({ st with now := st.now + calculateDelay st.requestQueue st.now + dur },
       [.throttled (calculateDelay st.requestQueue st.now),
        .dispatched req.id (st.now + calculateDelay st.requestQueue st.now),
        .rejected req.id m (st.now + calculateDelay st.requestQueue st.now + dur)]) := by
  simp [dispatchOnce, h]

/-- Each attempt either fulfils the handle of exactly the popped request and
leaves the rest of the queue as it was, or fulfils no handle and reinserts
the same request — same id, hence same resolve/reject pair — at the front. -/
lemma dispatchOnce_completions (st : SchedulerState) (req : PendingRequest)
    (o : UpstreamOutcome) :
    (completionIds (dispatchOnce st req o).2 = [req.id] ∧
     (dispatchOnce st req o).1.pendingRequests = st.pendingRequests) ∨
    (completionIds (dispatchOnce st req o).2 = [] ∧
     ∃ n, (dispatchOnce st req o).1.pendingRequests
        = { req with retryCount := some n } :: st.pendingRequests) := by
  cases o with
  | ok dur body =>
    cases hv : validateResponse body with
    | ok u =>
      cases u
      left
      rw [dispatchOnce_ok_of_valid _ _ _ _ hv]
      exact ⟨rfl, rfl⟩
    | error msg =>
      left
      rw [dispatchOnce_ok_of_error _ _ _ _ _ hv]
      exact ⟨rfl, rfl⟩
  | err dur e =>
    cases hcb : catchBlock req.retryCount e with
    | requeue n b =>
      right
      rw [dispatchOnce_err_of_requeue _ _ _ _ _ _ hcb]
      exact ⟨rfl, n, rfl⟩
    | reject m =>
      left
      rw [dispatchOnce_err_of_reject _ _ _ _ _ hcb]
      exact ⟨rfl, rfl⟩

/-- Completion ids distribute over trace concatenation. -/
lemma completionIds_append (a b : List Event) :
    completionIds (a ++ b) = completionIds a ++ completionIds b := by
  simp [completionIds, List.filterMap_append]

/-- A run never fulfils the handle of an id that is not pending. -/
lemma run_completions_not_pending :
    ∀ (fuel : Nat) (st : SchedulerState) (oracle : List UpstreamOutcome) (i : Nat),
      i ∉ st.pendingRequests.map PendingRequest.id →
      (completionIds (run fuel st oracle).2).count i = 0 := by
  intro fuel
  induction fuel with
  | zero => intro st oracle i _; simp [run, completionIds]
  | succ n ih =>
    intro st oracle i hi
    cases hp : st.pendingRequests with
    | nil => simp [run, hp, completionIds]
    | cons req rest =>
      rw [hp] at hi
      have hne : ¬ (req.id = i) := fun h => hi (by simp [h])
      have hrest : i ∉ rest.map PendingRequest.id := fun h => hi (List.mem_cons_of_mem _ h)
      simp only [run, hp]
      cases hlook : lookupCache st.responseCache (cacheKey req.messages req.model) with
      | some v =>
        have hrec := ih { st with pendingRequests := rest } oracle i hrest
        simpa [completionIds, List.count_cons, hne] using hrec
      | none =>
        cases oracle with
        | nil => simp [completionIds]
        | cons o os =>
          rcases dispatchOnce_completions { st with pendingRequests := rest } req o with
            ⟨hc, hpend⟩ | ⟨hc, n', hpend⟩
          · have hrec := ih (dispatchOnce { st with pendingRequests := rest } req o).1 os i
              (by rw [hpend]; exact hrest)
            simp only [completionIds_append, List.count_append, hc, hrec]
            simp [List.count_cons, hne]
          · have hrec := ih (dispatchOnce { st with pendingRequests := rest } req o).1 os i
              (by rw [hpend]
                  intro hmem
                  simp only [List.map_cons, List.mem_cons] at hmem
                  rcases hmem with h | h
                  · exact hne (by simpa using h.symm)
                  · exact hrest (by simpa using h))
            simp only [completionIds_append, List.count_append, hc, hrec]
            simp

/-- MIN_DELAY_MS evaluates to 30 000 ms. -/
lemma MIN_DELAY_MS_eq : MIN_DELAY_MS = 30000 := by decide

/-- The spacing property is preserved by dropping the most recent entry. -/
lemma Spaced.tail : ∀ {a : Int} {l : List Int}, Spaced (a :: l) → Spaced l
  | _, [], _ => trivial
  | _, [_], _ => trivial
  | _, _ :: _ :: _, h => h.2

/-- Recording a successful dispatch preserves the window invariants: with
r = now + calculateDelay(q, now) + dur, the new timestamp is at least
MIN_DELAY_MS later than the second-most-recent recording, and updateQueue
keeps the queue in invariant shape. -/
lemma record_step (q rrev : List Int) (now dur : Int)
    (hq : QueueInv q rrev) (hs : SortedDesc rrev) (hsp : Spaced rrev)
    (hnow : ∀ a, rrev.head? = some a → a ≤ now) (hdur : 0 ≤ dur) :
    QueueInv (updateQueue q (now + calculateDelay q now + dur))
        ((now + calculateDelay q now + dur) :: rrev) ∧
    SortedDesc ((now + calculateDelay q now + dur) :: rrev) ∧
    Spaced ((now + calculateDelay q now + dur) :: rrev) := by
  have hM := MIN_DELAY_MS_eq
  cases rrev with
  | nil =>
    have hqnil : q = [] := hq
    subst hqnil
    have hdel : calculateDelay [] now = 0 := rfl
    rw [hdel, updateQueue_nil]
    exact ⟨Or.inl ⟨rfl, Or.inl rfl⟩, List.pairwise_singleton _ _, trivial⟩
  | cons a rest =>
    have hanow : a ≤ now := hnow a rfl
    have hrest_le : ∀ x ∈ rest, x ≤ a := (List.pairwise_cons.mp hs).1
    rcases hq with ⟨hq1, hside⟩ | ⟨b, rest', hrest, hq2⟩
    · -- queue holds only the latest recording
      subst hq1
      have hdel : calculateDelay [a] now = 0 := by
        simp [calculateDelay, MAX_QUEUE_SIZE, RATE_LIMIT_REQUESTS]
      rw [hdel, updateQueue_one]
      refine ⟨?_, ?_, ?_⟩
      · by_cases hstale : (60000 : Int) ≤ now + 0 + dur - a
        · rw [if_pos hstale]
          exact Or.inl ⟨rfl, Or.inr ⟨a, rest, rfl, by omega⟩⟩
        · rw [if_neg hstale]
          exact Or.inr ⟨a, rest, rfl, rfl⟩
      · refine List.pairwise_cons.mpr ⟨?_, hs⟩
        intro x hx
        rcases List.mem_cons.mp hx with h | h
        · subst h; omega
        · have := hrest_le x h; omega
      · cases rest with
        | nil => trivial
        | cons b rest' =>
          refine ⟨?_, hsp⟩
          rcases hside with h | ⟨b', rest'', heq, hb⟩
          · exact absurd h (List.cons_ne_nil _ _)
          · injection heq with h1 h2
            subst h1
            omega
    · -- queue holds the two most recent recordings
      subst hq2
      subst hrest
      have hdel : calculateDelay [b, a] now = max 0 (MIN_DELAY_MS - (now - b)) := by
        simp [calculateDelay, MAX_QUEUE_SIZE, RATE_LIMIT_REQUESTS, List.headI]
      have hmax1 : MIN_DELAY_MS - (now - b) ≤ max 0 (MIN_DELAY_MS - (now - b)) :=
        le_max_right _ _
      have hmax0 : (0 : Int) ≤ max 0 (MIN_DELAY_MS - (now - b)) := le_max_left _ _
      rw [hdel, updateQueue_two]
      refine ⟨?_, ?_, ?_⟩
      · by_cases hb60 : (60000 : Int) ≤ now + max 0 (MIN_DELAY_MS - (now - b)) + dur - b
        · rw [if_pos hb60]
          by_cases ha60 : (60000 : Int) ≤ now + max 0 (MIN_DELAY_MS - (now - b)) + dur - a
          · rw [if_pos ha60]
            exact Or.inl ⟨rfl, Or.inr ⟨a, b :: rest', rfl, by omega⟩⟩
          · rw [if_neg ha60]
            exact Or.inr ⟨a, b :: rest', rfl, rfl⟩
        · rw [if_neg hb60]
          exact Or.inr ⟨a, b :: rest', rfl, rfl⟩
      · refine List.pairwise_cons.mpr ⟨?_, hs⟩
        intro x hx
        rcases List.mem_cons.mp hx with h | h
        · subst h; omega
        · have := hrest_le x h; omega
      · exact ⟨by omega, hsp⟩

/-- Run-level window invariant: starting from a state whose queue satisfies
the invariant against the reverse-chronological list of previously recorded
timestamps, the recordings of any run extend that list keeping it sorted and
spaced. -/
lemma run_recs_inv :
    ∀ (fuel : Nat) (st : SchedulerState) (oracle : List UpstreamOutcome) (rrev : List Int),
      (∀ o ∈ oracle, 0 ≤ o.dur) →
      QueueInv st.requestQueue rrev → SortedDesc rrev → Spaced rrev →
      (∀ a, rrev.head? = some a → a ≤ st.now) →
      SortedDesc ((recTimes (run fuel st oracle).2).reverse ++ rrev) ∧
      Spaced ((recTimes (run fuel st oracle).2).reverse ++ rrev) := by
  intro fuel
  induction fuel with
  | zero => intro st oracle rrev _ _ hs hsp _; simpa [run, recTimes] using ⟨hs, hsp⟩
  | succ n ih =>
    intro st oracle rrev hdur hq hs hsp hnow
    cases hp : st.pendingRequests with
    | nil => simpa [run, hp, recTimes] using ⟨hs, hsp⟩
    | cons req rest =>
      cases hlook : lookupCache st.responseCache (cacheKey req.messages req.model) with
      | some v =>
        simp only [run, hp, hlook]
        have hrec := ih { st with pendingRequests := rest } oracle rrev hdur hq hs hsp hnow
        simpa [recTimes] using hrec
      | none =>
        cases oracle with
        | nil => simp only [run, hp, hlook]; simpa [recTimes] using ⟨hs, hsp⟩
        | cons o os =>
          simp only [run, hp, hlook]
          have hdur_o : 0 ≤ o.dur := hdur o (List.mem_cons_self _ _)
          have hdur_os : ∀ x ∈ os, 0 ≤ x.dur := fun x hx => hdur x (List.mem_cons_of_mem _ hx)
          have hd0 : 0 ≤ calculateDelay st.requestQueue st.now :=
            calculateDelay_nonneg st.requestQueue st.now
          cases o with
          | ok d body =>
            have hstep := record_step st.requestQueue rrev st.now d hq hs hsp hnow hdur_o
            have hnow' : ∀ a,
                ((st.now + calculateDelay st.requestQueue st.now + d) :: rrev).head? = some a →
                a ≤ st.now + calculateDelay st.requestQueue st.now + d := by
              intro x hx
              simp only [List.head?_cons, Option.some.injEq] at hx
              omega
            cases hv : validateResponse body with
            | ok u =>
              cases u
              rw [dispatchOnce_ok_of_valid _ _ _ _ hv]
              have hrec := ih ⟨rest,
                  updateQueue st.requestQueue
                    (st.now + calculateDelay st.requestQueue st.now + d),
                  (cacheKey req.messages req.model, body) :: st.responseCache,
                  st.now + calculateDelay st.requestQueue st.now + d⟩ os
                  ((st.now + calculateDelay st.requestQueue st.now + d) :: rrev)
                  hdur_os hstep.1 hstep.2.1 hstep.2.2 hnow'
              simpa [recTimes, List.filterMap_append] using hrec
            | error msg =>
              rw [dispatchOnce_ok_of_error _ _ _ _ _ hv]
              have hrec := ih ⟨rest,
                  updateQueue st.requestQueue
                    (st.now + calculateDelay st.requestQueue st.now + d),
                  st.responseCache,
                  st.now + calculateDelay st.requestQueue st.now + d⟩ os
                  ((st.now + calculateDelay st.requestQueue st.now + d) :: rrev)
                  hdur_os hstep.1 hstep.2.1 hstep.2.2 hnow'
              simpa [recTimes, List.filterMap_append] using hrec
          | err d e =>
            cases hcb : catchBlock req.retryCount e with
            | requeue n' b =>
              rw [dispatchOnce_err_of_requeue _ _ _ _ _ _ hcb]
              have hb := catchBlock_requeue_backoff_nonneg _ _ _ _ hcb
              have hrec := ih ⟨{ req with retryCount := some n' } :: rest,
                  st.requestQueue, st.responseCache,
                  st.now + calculateDelay st.requestQueue st.now + d + b⟩ os rrev
                  hdur_os hq hs hsp
                  (by intro x hx
                      have hxa := hnow x hx
                      simp only [UpstreamOutcome.dur] at hdur_o
                      show x ≤ st.now + calculateDelay st.requestQueue st.now + d + b
                      omega)
              simpa [recTimes] using hrec
            | reject m =>
              rw [dispatchOnce_err_of_reject _ _ _ _ _ hcb]
              have hrec := ih ⟨rest, st.requestQueue, st.responseCache,
                  st.now + calculateDelay st.requestQueue st.now + d⟩ os rrev
                  hdur_os hq hs hsp
                  (by intro x hx
                      have hxa := hnow x hx
                      simp only [UpstreamOutcome.dur] at hdur_o
                      show x ≤ st.now + calculateDelay st.requestQueue st.now + d
                      omega)
              simpa [recTimes] using hrec

/-- In a reverse-chronologically sorted and spaced timestamp list, at most 4
entries fall in any trailing 60 000 ms window. -/
lemma window_le_four (t : Int) :
    ∀ l : List Int, SortedDesc l → Spaced l → (l.filter (inWindow t)).length ≤ 4 := by
  intro l
  induction l with
  | nil => intro _ _; simp
  | cons a l' ih =>
    intro hs hsp
    by_cases hpa : inWindow t a = true
    · rcases l' with _ | ⟨b, _ | ⟨c, _ | ⟨d, _ | ⟨e, rest⟩⟩⟩⟩
      · exact le_trans (List.length_filter_le _ _) (by simp)
      · exact le_trans (List.length_filter_le _ _) (by simp)
      · exact le_trans (List.length_filter_le _ _) (by simp)
      · exact le_trans (List.length_filter_le _ _) (by simp)
      · have h1 : c + MIN_DELAY_MS ≤ a := hsp.1
        have h2 : e + MIN_DELAY_MS ≤ c := hsp.2.2.1
        have hwin : t - 60000 < a ∧ a ≤ t := by simpa [inWindow] using hpa
        have hse : SortedDesc (e :: rest) := hs.of_cons.of_cons.of_cons.of_cons
        have hM := MIN_DELAY_MS_eq
        have hfe : List.filter (inWindow t) (e :: rest) = [] := by
          rw [List.filter_eq_nil_iff]
          intro x hx
          have hxe : x ≤ e := by
            rcases List.mem_cons.mp hx with h | h
            · exact le_of_eq h
            · exact (List.pairwise_cons.mp hse).1 x h
          simp only [inWindow, decide_eq_true_eq, not_and, not_le]
          intro hlow
          omega
        have hshape : a :: b :: c :: d :: e :: rest = [a, b, c, d] ++ (e :: rest) := rfl
        rw [hshape, List.filter_append, hfe, List.append_nil]
        exact le_trans (List.length_filter_le _ _) (by simp)
    · rw [List.filter_cons, if_neg hpa]
      exact ih hs.of_cons hsp.tail

/-- When the initial cache misses every queued fingerprint and the queued
fingerprints are pairwise distinct, no request is ever served from the cache:
only a request's own success caches its key, completed keys differ from every
remaining key, and a requeued 429 request keeps its never-cached key. These
are exactly the executions on which the serialized run coincides with the
source's loop, since without cache hits the loop is strictly single-flight. -/
lemma run_no_cacheHit :
    ∀ (fuel : Nat) (st : SchedulerState) (oracle : List UpstreamOutcome),
      (st.pendingRequests.map fun r => cacheKey r.messages r.model).Nodup →
      (∀ r ∈ st.pendingRequests,
        lookupCache st.responseCache (cacheKey r.messages r.model) = none) →
      ∀ (i : Nat) (v : RespBody) (t : Int),
        Event.cacheHit i v t ∉ (run fuel st oracle).2 := by
  intro fuel
  induction fuel with
  | zero => intro st oracle _ _ i v t; simp [run]
  | succ n ih =>
    intro st oracle hnodup hmiss i v t
    cases hp : st.pendingRequests with
    | nil => simp [run, hp]
    | cons req rest =>
      have hmiss_req := hmiss req (by rw [hp]; exact List.mem_cons_self _ _)
      rw [hp] at hnodup
      simp only [List.map_cons] at hnodup
      have hnd := List.nodup_cons.mp hnodup
      have hmiss_rest : ∀ r ∈ rest,
          lookupCache st.responseCache (cacheKey r.messages r.model) = none :=
        fun r hr => hmiss r (by rw [hp]; exact List.mem_cons_of_mem _ hr)
      cases oracle with
      | nil => simp [run, hp, hmiss_req]
      | cons o os =>
        simp only [run, hp, hmiss_req]
        cases o with
        | ok d body =>
          cases hv : validateResponse body with
          | ok u =>
            cases u
            rw [dispatchOnce_ok_of_valid _ _ _ _ hv]
            have hmiss' : ∀ r ∈ rest,
                lookupCache ((cacheKey req.messages req.model, body) :: st.responseCache)
                  (cacheKey r.messages r.model) = none := by
              intro r hr
              have hne : ¬ (cacheKey req.messages req.model = cacheKey r.messages r.model) :=
                fun heq => hnd.1 (heq ▸ List.mem_map_of_mem _ hr)
              simp only [lookupCache, if_neg hne]
              exact hmiss_rest r hr
            have hrec := ih ⟨rest,
                updateQueue st.requestQueue
                  (st.now + calculateDelay st.requestQueue st.now + d),
                (cacheKey req.messages req.model, body) :: st.responseCache,
                st.now + calculateDelay st.requestQueue st.now + d⟩ os
                hnd.2 hmiss' i v t
            simpa using hrec
          | error msg =>
            rw [dispatchOnce_ok_of_error _ _ _ _ _ hv]
            have hrec := ih ⟨rest,
                updateQueue st.requestQueue
                  (st.now + calculateDelay st.requestQueue st.now + d),
                st.responseCache,
                st.now + calculateDelay st.requestQueue st.now + d⟩ os
                hnd.2 hmiss_rest i v t
            simpa using hrec
        | err d e =>
          cases hcb : catchBlock req.retryCount e with
          | requeue n' b =>
            rw [dispatchOnce_err_of_requeue _ _ _ _ _ _ hcb]
            have hnodup' : ((({ req with retryCount := some n' } :: rest).map
                fun r => cacheKey r.messages r.model)).Nodup := by
              simpa using hnodup
            have hmiss' : ∀ r ∈ { req with retryCount := some n' } :: rest,
                lookupCache st.responseCache (cacheKey r.messages r.model) = none := by
              intro r hr
              rcases List.mem_cons.mp hr with h | h
              · subst h; exact hmiss_req
              · exact hmiss_rest r h
            have hrec := ih ⟨{ req with retryCount := some n' } :: rest, st.requestQueue,
                st.responseCache,
                st.now + calculateDelay st.requestQueue st.now + d + b⟩ os
                hnodup' hmiss' i v t
            simpa using hrec
          | reject m =>
            rw [dispatchOnce_err_of_reject _ _ _ _ _ hcb]
            have hrec := ih ⟨rest, st.requestQueue, st.responseCache,
                st.now + calculateDelay st.requestQueue st.now + d⟩ os
                hnd.2 hmiss_rest i v t
            simpa using hrec

/-- C1 (counterexample): three distinct back-to-back submissions on an empty
window, all succeeding instantly, record successful dispatch timestamps 0, 0
and 30000 — three successful dispatches inside the trailing 60 000 ms window
ending at t = 30000, refuting the claimed bound of 2 per sliding minute. -/
theorem c1_counterexample :
    2 < windowCount (run 4 ⟨[⟨1, [⟨"user", "q1"⟩], "m", none⟩,
        ⟨2, [⟨"user", "q2"⟩], "m", none⟩, ⟨3, [⟨"user", "q3"⟩], "m", none⟩], [], [], 0⟩
        [.ok 0 sampleOkBody, .ok 0 sampleOkBody, .ok 0 sampleOkBody]).2 30000 := by
  decide

/-- C1 (amended): the throttle does not bound successful throughput by 2 per
sliding minute. In executions where no dispatch is ever served from the cache
— empty initial cache and pairwise-distinct fingerprints, the fragment on
which the source's loop is strictly single-flight and the serialized run is
exact — every successful dispatch timestamp is at least MIN_DELAY_MS =
30 000 ms later than the timestamp two recordings earlier, so no more than 4
successful dispatch timestamps occur within any trailing 60 000 ms window
(empty initial rate window, nonnegative upstream call durations). The first
conjunct certifies that the covered executions are indeed cache-hit-free; in
executions with cache hits the single-flight violation lets concurrent
dispatches read stale windows, and no constant bound holds. -/
theorem c1_amended_window_bound (fuel : Nat) (pending : List PendingRequest)
    (now0 t : Int) (oracle : List UpstreamOutcome)
    (hdur : ∀ o ∈ oracle, 0 ≤ o.dur)
    (hnodup : (pending.map fun r => cacheKey r.messages r.model).Nodup) :
    (∀ (i : Nat) (v : RespBody) (t' : Int),
        Event.cacheHit i v t' ∉ (run fuel ⟨pending, [], [], now0⟩ oracle).2) ∧
    windowCount (run fuel ⟨pending, [], [], now0⟩ oracle).2 t ≤ 4 := by
  constructor
  · exact run_no_cacheHit fuel ⟨pending, [], [], now0⟩ oracle hnodup (fun r _ => rfl)
  · have hinv := run_recs_inv fuel ⟨pending, [], [], now0⟩ oracle [] hdur rfl
      List.Pairwise.nil trivial (by intro a ha; simp at ha)
    rw [List.append_nil] at hinv
    have h4 := window_le_four t _ hinv.1 hinv.2
    rw [List.filter_reverse, List.length_reverse] at h4
    exact h4

/-- C1 (witness): the amended 4-per-window bound and cache-hit-freedom at the
concrete three-burst run. -/
theorem c1_amended_witness :
    (Event.cacheHit 2 sampleOkBody 0 ∉
      (run 4 ⟨[⟨1, [⟨"user", "q1"⟩], "m", none⟩, ⟨2, [⟨"user", "q2"⟩], "m", none⟩,
          ⟨3, [⟨"user", "q3"⟩], "m", none⟩], [], [], 0⟩
        [.ok 0 sampleOkBody, .ok 0 sampleOkBody, .ok 0 sampleOkBody]).2) ∧
    windowCount (run 4 ⟨[⟨1, [⟨"user", "q1"⟩], "m", none⟩,
        ⟨2, [⟨"user", "q2"⟩], "m", none⟩, ⟨3, [⟨"user", "q3"⟩], "m", none⟩], [], [], 0⟩
        [.ok 0 sampleOkBody, .ok 0 sampleOkBody, .ok 0 sampleOkBody]).2 30000 ≤ 4 :=
  have h := c1_amended_window_bound 4
    [⟨1, [⟨"user", "q1"⟩], "m", none⟩, ⟨2, [⟨"user", "q2"⟩], "m", none⟩,
     ⟨3, [⟨"user", "q3"⟩], "m", none⟩] 0 30000
    [.ok 0 sampleOkBody, .ok 0 sampleOkBody, .ok 0 sampleOkBody] (by decide) (by decide)
  ⟨h.1 2 sampleOkBody 0, h.2⟩

/-- A cache-hit completion prepends its id to the trace's completion ids. -/
lemma completionIds_cacheHit_cons (i : Nat) (v : RespBody) (t : Int) (evs : List Event) :
    completionIds (Event.cacheHit i v t :: evs) = i :: completionIds evs := by
  simp [completionIds]

/-- C9: for every queued request (ids pairwise distinct), the completion
handle is fulfilled at most once across all of that request's attempts in any
run — a retryable-429 requeue fulfils neither side, carrying the same handle
into the reinserted PendingRequest — and exactly once in any run that drains
the queue. -/
theorem c9_handle_fulfilled_exactly_once :
    ∀ (fuel : Nat) (st : SchedulerState) (oracle : List UpstreamOutcome) (i : Nat),
      (st.pendingRequests.map PendingRequest.id).Nodup →
      (completionIds (run fuel st oracle).2).count i ≤ 1 ∧
      ((run fuel st oracle).1.pendingRequests = [] →
        i ∈ st.pendingRequests.map PendingRequest.id →
        (completionIds (run fuel st oracle).2).count i = 1) := by
  intro fuel
  induction fuel with
  | zero =>
    intro st oracle i _
    refine ⟨by simp [run, completionIds], ?_⟩
    intro hfin hi
    have h2 : st.pendingRequests = [] := hfin
    rw [h2] at hi
    simp at hi
  | succ n ih =>
    intro st oracle i hnodup
    cases hp : st.pendingRequests with
    | nil =>
      refine ⟨by simp [run, hp, completionIds], ?_⟩
      intro _ hi
      simp at hi
    | cons req rest =>
      rw [hp] at hnodup
      simp only [List.map_cons] at hnodup
      have hnd := List.nodup_cons.mp hnodup
      cases hlook : lookupCache st.responseCache (cacheKey req.messages req.model) with
      | some v =>
        simp only [run, hp, hlook]
        by_cases hi : req.id = i
        · subst hi
          have hz := run_completions_not_pending n { st with pendingRequests := rest }
            oracle req.id hnd.1
          refine ⟨?_, fun _ _ => ?_⟩ <;>
            simp [completionIds_cacheHit_cons, List.count_cons, hz]
        · have hihs := ih { st with pendingRequests := rest } oracle i hnd.2
          refine ⟨?_, ?_⟩
          · simpa [completionIds_cacheHit_cons, List.count_cons, hi, Ne.symm hi] using hihs.1
          · intro hfin hmem
            simp only [List.map_cons, List.mem_cons] at hmem
            rcases hmem with h | h
            · exact absurd h.symm hi
            · simpa [completionIds_cacheHit_cons, List.count_cons, hi, Ne.symm hi]
                using hihs.2 hfin h
      | none =>
        cases oracle with
        | nil =>
          simp only [run, hp, hlook]
          refine ⟨by simp [completionIds], ?_⟩
          intro hfin _
          exact absurd hfin (List.cons_ne_nil _ _)
        | cons o os =>
          simp only [run, hp, hlook]
          rcases dispatchOnce_completions { st with pendingRequests := rest } req o with
            ⟨hc, hpend⟩ | ⟨hc, n', hpend⟩
          · by_cases hi : req.id = i
            · subst hi
              have hz := run_completions_not_pending n
                (dispatchOnce { st with pendingRequests := rest } req o).1 os req.id
                (by rw [hpend]; exact hnd.1)
              refine ⟨?_, fun _ _ => ?_⟩ <;>
                simp [completionIds_append, List.count_append, hc, hz, List.count_cons]
            · have hihs := ih (dispatchOnce { st with pendingRequests := rest } req o).1 os i
                (by rw [hpend]; exact hnd.2)
              refine ⟨?_, ?_⟩
              · simpa [completionIds_append, List.count_append, hc, List.count_cons,
                  hi, Ne.symm hi] using hihs.1
              · intro hfin hmem
                simp only [List.map_cons, List.mem_cons] at hmem
                rcases hmem with h | h
                · exact absurd h.symm hi
                · have hrec := hihs.2 hfin (by rw [hpend]; exact h)
                  simpa [completionIds_append, List.count_append, hc, List.count_cons,
                    hi, Ne.symm hi] using hrec
          · have hids : ((dispatchOnce { st with pendingRequests := rest } req
                o).1.pendingRequests.map PendingRequest.id)
                = req.id :: rest.map PendingRequest.id := by
              rw [hpend]; simp
            have hihs := ih (dispatchOnce { st with pendingRequests := rest } req o).1 os i
              (by rw [hids]; exact hnodup)
            refine ⟨?_, ?_⟩
            · simpa [completionIds_append, List.count_append, hc] using hihs.1
            · intro hfin hmem
              have hrec := hihs.2 hfin (by rw [hids]; simpa using hmem)
              simpa [completionIds_append, List.count_append, hc] using hrec

/-- C9 (witness): the exactly-once statement at a concrete drained run. -/
theorem c9_witness :
    (completionIds (run 2 ⟨[⟨1, [⟨"u", "a"⟩], "m", none⟩], [], [], 0⟩
        [.ok 0 sampleOkBody]).2).count 1 = 1 :=
  (c9_handle_fulfilled_exactly_once 2 ⟨[⟨1, [⟨"u", "a"⟩], "m", none⟩], [], [], 0⟩
    [.ok 0 sampleOkBody] 1 (by decide)).2 (by decide) (by decide)

/-- C10: an upstream call that resolves with a body failing any validation
check — not an object, a truthy error field, missing or empty choices, or a
missing, empty or non-string first-choice content — is rejected terminally
with the check's message, is never reinserted into the queue (even when the
embedded error field describes rate limiting, since retry classification
keys solely on HTTP status 429, and a plain thrown Error has none), and
writes nothing to the cache. -/
theorem c10_malformed_response_terminal (st : SchedulerState) (req : PendingRequest)
    (dur : Int) (body : RespBody) (msg : String)
    (h : validateResponse body = .error msg) :
    (dispatchOnce st req (.ok dur body)).1.pendingRequests = st.pendingRequests ∧
    (dispatchOnce st req (.ok dur body)).1.responseCache = st.responseCache ∧
    backoffDelays (dispatchOnce st req (.ok dur body)).2 = [] ∧
    rejections (dispatchOnce st req (.ok dur body)).2 = [(req.id, msg)] := by
  rw [dispatchOnce_ok_of_error st req dur body msg h]
  exact ⟨rfl, rfl, rfl, rfl⟩

/-- C10 (witness): a body whose embedded error field describes rate limiting
is still rejected, not requeued, and the cache is untouched. -/
theorem c10_witness :
    (dispatchOnce ⟨[⟨4, [], "m", none⟩], [], [], 0⟩ ⟨3, [], "m", none⟩
        (.ok 0 (.obj ⟨some (some "Rate limit exceeded"), none⟩))).1.pendingRequests
      = [⟨4, [], "m", none⟩] ∧
    (dispatchOnce ⟨[⟨4, [], "m", none⟩], [], [], 0⟩ ⟨3, [], "m", none⟩
        (.ok 0 (.obj ⟨some (some "Rate limit exceeded"), none⟩))).1.responseCache = [] ∧
    rejections (dispatchOnce ⟨[⟨4, [], "m", none⟩], [], [], 0⟩ ⟨3, [], "m", none⟩
        (.ok 0 (.obj ⟨some (some "Rate limit exceeded"), none⟩))).2
      = [(3, "API Error: Rate limit exceeded")] := by
  have h := c10_malformed_response_terminal ⟨[⟨4, [], "m", none⟩], [], [], 0⟩
    ⟨3, [], "m", none⟩ 0 (.obj ⟨some (some "Rate limit exceeded"), none⟩)
    "API Error: Rate limit exceeded" rfl
  exact ⟨h.1, h.2.1, h.2.2.2⟩

end OpenRouter

